import Mathlib

/-!
Verification development for the adalat-assignment interactive-table
repository.  The repository is a React component (`AdvancedTable`) that
delegates filtering, sorting and pagination to a table-state library and
adds CSV export, column-visibility toggling, column resizing and a
page-size selector on top.  The pipeline stages themselves (filter, sort,
paginate, column registry, ingestion) are not part of the repository's own
sources; where a property concerns them they are modelled from the
specification's words.  Everything written directly in the repository
(`exportToCsv`, `toggleColumnVisibility`, `setPageSize`,
`handleColumnResize`, the column definitions of `App`) is embedded from
the source.
-/

/-- A data row, from the `RowData` interface of
`src/interactive-table/src/components/AdvancedTable.tsx` (lines 15-20):
`{ name: string; age: number; country: string; city: string }`. -/
structure RowData where
  name : String
  age : Int
  country : String
  city : String
deriving DecidableEq, Repr

/-- A cell value: the repository's accessor values are either strings
(name, city, country) or numbers (age). -/
inductive CellValue where
  | str (s : String)
  | num (n : Int)
deriving DecidableEq, Repr

/-- Canonical string form of a cell value, as used when the component
interpolates a value into CSV text. -/
def cellToString : CellValue → String
  | CellValue.str s => s
  | CellValue.num n => toString n

/-- A column definition as the component receives it: a display header and
an accessor, mirroring the `ColumnDef` values built in `App`
(src/unnamed/part_001 lines 15-23). -/
structure ColumnDef where
  header : String
  accessor : RowData → CellValue

/-- The four columns registered by `App` (src/unnamed/part_001):
Name, Age, City, Country with their accessor keys. -/
def appColumns : List ColumnDef :=
  [ { header := "Name", accessor := fun r => CellValue.str r.name },
    { header := "Age", accessor := fun r => CellValue.num r.age },
    { header := "City", accessor := fun r => CellValue.str r.city },
    { header := "Country", accessor := fun r => CellValue.str r.country } ]

/-- Sort direction of the single active sort key. -/
inductive SortDirection where
  | asc
  | desc
deriving DecidableEq, Repr

/-- Modelled from the spec: natural ordering for numbers and
lexicographic ordering for strings (section 4.3).  Mixed-type comparison
never arises for the homogeneous columns of this repository; strings are
ordered before numbers to make the comparator total. -/
def cellLe : CellValue → CellValue → Bool
  | CellValue.str a, CellValue.str b => decide (a ≤ b)
  | CellValue.num a, CellValue.num b => decide (a ≤ b)
  | CellValue.str _, CellValue.num _ => true
  | CellValue.num _, CellValue.str _ => false

theorem cellLe_refl (v : CellValue) : cellLe v v = true := by
  cases v <;> simp [cellLe]

/-- Modelled from the spec: the row comparator for a sort key.  Direction
`desc` reverses the natural-order comparator itself (section 4.3), not the
output list. -/
def rowOrder (acc : RowData → CellValue) : SortDirection → RowData → RowData → Bool
  | SortDirection.asc, x, y => cellLe (acc x) (acc y)
  | SortDirection.desc, x, y => cellLe (acc y) (acc x)

/-- Stable insertion of an element into a sorted list: the new element is
placed before the first element it compares less-or-equal to, hence before
later-arriving equal keys. -/
def insertSorted {α : Type} (le : α → α → Bool) (x : α) : List α → List α
  | [] => [x]
  | y :: ys => if le x y then x :: y :: ys else y :: insertSorted le x ys

/-- Stable insertion sort driven by a boolean less-or-equal comparator. -/
def insertionSortBy {α : Type} (le : α → α → Bool) : List α → List α
  | [] => []
  | x :: xs => insertSorted le x (insertionSortBy le xs)

/-- Modelled from the spec: the sort stage's row ordering (section 4.3),
a stable sort by the column's accessor value in the requested direction. -/
def sortRows (acc : RowData → CellValue) (d : SortDirection) (rows : List RowData) : List RowData :=
  insertionSortBy (rowOrder acc d) rows

theorem filter_insertSorted_neg {α : Type} (le : α → α → Bool) (p : α → Bool) (x : α)
    (hx : p x = false) :
    ∀ l : List α, (insertSorted le x l).filter p = l.filter p := by
  intro l
  induction l with
  | nil => simp [insertSorted, hx]
  | cons y ys ih =>
    by_cases hxy : le x y = true
    · simp [insertSorted, hxy, List.filter_cons, hx]
    · have hxy2 : le x y = false := by
        cases hc : le x y
        · rfl
        · exact absurd hc hxy
      simp only [insertSorted, hxy2, Bool.false_eq_true, if_false, List.filter_cons]
      rw [ih]

theorem filter_insertSorted_pos {α : Type} (le : α → α → Bool) (p : α → Bool) (x : α)
    (hx : p x = true) (hle : ∀ y, p y = true → le x y = true) :
    ∀ l : List α, (insertSorted le x l).filter p = x :: l.filter p := by
  intro l
  induction l with
  | nil => simp [insertSorted, hx]
  | cons y ys ih =>
    by_cases hxy : le x y = true
    · simp [insertSorted, hxy, List.filter_cons, hx]
    · have hpy : p y = false := by
        cases hc : p y
        · rfl
        · exact absurd (hle y hc) hxy
      have hxy2 : le x y = false := by
        cases hc : le x y
        · rfl
        · exact absurd hc hxy
      simp only [insertSorted, hxy2, Bool.false_eq_true, if_false, List.filter_cons, hpy]
      exact ih

theorem filter_insertionSortBy {α : Type} (le : α → α → Bool) (p : α → Bool)
    (hcomp : ∀ x y, p x = true → p y = true → le x y = true) :
    ∀ l : List α, (insertionSortBy le l).filter p = l.filter p := by
  intro l
  induction l with
  | nil => rfl
  | cons x xs ih =>
    by_cases hx : p x = true
    · rw [insertionSortBy,
        filter_insertSorted_pos le p x hx (fun y hy => hcomp x y hx hy), ih,
        List.filter_cons, if_pos hx]
    · have hx2 : p x = false := by
        cases hc : p x
        · rfl
        · exact absurd hc hx
      rw [insertionSortBy, filter_insertSorted_neg le p x hx2, ih, List.filter_cons]
      simp [hx2]

/-- C4: the sort stage is stable in both directions — for any accessor,
direction and key value, the rows carrying that key value appear in the
sorted output in exactly their original relative order; and the `desc`
comparator is the argument-swapped `asc` comparator (the comparator is
reversed, not the output list). -/
theorem sortRows_stable_both_directions (acc : RowData → CellValue) (d : SortDirection)
    (rows : List RowData) (v : CellValue) :
    (sortRows acc d rows).filter (fun r => decide (acc r = v)) =
      rows.filter (fun r => decide (acc r = v)) ∧
    (∀ x y, rowOrder acc SortDirection.desc x y = rowOrder acc SortDirection.asc y x) := by
  constructor
  · apply filter_insertionSortBy
    intro x y hx hy
    have hx2 : acc x = v := of_decide_eq_true hx
    have hy2 : acc y = v := of_decide_eq_true hy
    cases d <;> simp [rowOrder, hx2, hy2, cellLe_refl]
  · intro x y
    rfl

/-- True when the search text is empty or consists only of whitespace
characters. -/
def isBlankText (s : String) : Bool := s.data.all (fun c => c.isWhitespace)

/-- Case-folded character list of a string (simple lower-casing, as the
spec prescribes in section 4.2). -/
def lowerOf (s : String) : List Char := s.data.map Char.toLower

/-- Boolean test that the first character list is an initial segment of
the second. -/
def prefixMatch : List Char → List Char → Bool
  | [], _ => true
  | _ :: _, [] => false
  | a :: as, b :: bs => a == b && prefixMatch as bs

/-- Boolean substring test: the needle occurs contiguously somewhere in
the haystack. -/
def substrMatch (needle : List Char) : List Char → Bool
  | [] => prefixMatch needle []
  | b :: bs => prefixMatch needle (b :: bs) || substrMatch needle bs

/-- Modelled from the spec: case-insensitive substring match of the filter
text against the canonical string form of a cell value (section 4.2). -/
def matchesText (ft : String) (v : CellValue) : Bool :=
  substrMatch (lowerOf ft) (lowerOf (cellToString v))

/-- Modelled from the spec: the result handed back by the pagination
stage — the visible page plus metadata (sections 2 and 4.4). -/
structure PageResult where
  pageRows : List RowData
  pageCount : Nat
  pageIndex : Nat
  canPrevious : Bool
  canNext : Bool
deriving DecidableEq, Repr

/-- Modelled from the spec: `pageCount = ceil(rowCount / pageSize)`,
minimum 1 even when `rowCount = 0` (section 4.4). -/
def pageCountOf (rowCount pageSize : Nat) : Nat :=
  max 1 ((rowCount + pageSize - 1) / pageSize)

/-- Modelled from the spec: the pagination stage (section 4.4).  A
requested `pageIndex ≥ pageCount` is clamped to the last valid page; the
clamped index is reported back to the caller. -/
def paginateStage (rows : List RowData) (pageIndex pageSize : Nat) : PageResult :=
  let pc := pageCountOf rows.length pageSize
  let idx := min pageIndex (pc - 1)
  { pageRows := (rows.drop (idx * pageSize)).take pageSize
    pageCount := pc
    pageIndex := idx
    canPrevious := decide (0 < idx)
    canNext := decide (idx < pc - 1) }

theorem pageCount_paginate (rows : List RowData) (i p : Nat) :
    (paginateStage rows i p).pageCount = pageCountOf rows.length p := rfl

theorem pageIndex_paginate (rows : List RowData) (i p : Nat) :
    (paginateStage rows i p).pageIndex = min i (pageCountOf rows.length p - 1) := rfl

theorem pageRows_paginate (rows : List RowData) (i p : Nat) :
    (paginateStage rows i p).pageRows =
      (rows.drop (min i (pageCountOf rows.length p - 1) * p)).take p := rfl

theorem one_le_pageCountOf (n p : Nat) : 1 ≤ pageCountOf n p :=
  le_max_left 1 _

theorem pageCountOf_zero (p : Nat) (hp : 0 < p) : pageCountOf 0 p = 1 := by
  unfold pageCountOf
  have h : (0 + p - 1) / p = 0 := Nat.div_eq_of_lt (by omega)
  rw [h]
  simp

theorem pageCountOf_of_pos (n p : Nat) (hp : 0 < p) (hn : 0 < n) :
    pageCountOf n p = (n + p - 1) / p := by
  unfold pageCountOf
  have h1 : 1 ≤ (n + p - 1) / p := by
    rw [Nat.le_div_iff_mul_le hp]
    omega
  exact Nat.max_eq_right h1

theorem le_pageCountOf_mul (n p : Nat) (hp : 0 < p) : n ≤ pageCountOf n p * p := by
  rcases Nat.eq_zero_or_pos n with hn | hn
  · subst hn
    exact Nat.zero_le _
  · rw [pageCountOf_of_pos n p hp hn]
    have hd := Nat.div_add_mod (n + p - 1) p
    have hm : (n + p - 1) % p < p := Nat.mod_lt _ hp
    have key : ∀ m r : Nat, m + r = n + p - 1 → r < p → n ≤ m := by
      intro m r h1 h2
      omega
    have h3 : n ≤ p * ((n + p - 1) / p) :=
      key (p * ((n + p - 1) / p)) ((n + p - 1) % p) hd hm
    calc n ≤ p * ((n + p - 1) / p) := h3
      _ = (n + p - 1) / p * p := Nat.mul_comm _ _

theorem pageCountOf_pred_mul_lt (n p : Nat) (hp : 0 < p) (hn : 0 < n) :
    (pageCountOf n p - 1) * p < n := by
  rw [pageCountOf_of_pos n p hp hn, Nat.sub_one_mul]
  have hd := Nat.div_add_mod (n + p - 1) p
  have hm : (n + p - 1) % p < p := Nat.mod_lt _ hp
  have key : ∀ m r : Nat, m + r = n + p - 1 → r < p → 0 < n → m - p < n := by
    intro m r h1 h2 h3
    omega
  have h3 : p * ((n + p - 1) / p) - p < n :=
    key (p * ((n + p - 1) / p)) ((n + p - 1) % p) hd hm hn
  calc (n + p - 1) / p * p - p = p * ((n + p - 1) / p) - p := by rw [Nat.mul_comm]
    _ < n := h3

/-- C2: for a positive page size the pagination stage reports
`pageCount = ceil(rowCount / pageSize)` — pinned down both as the explicit
Nat ceiling-division formula for non-empty row sets and by the two
ceiling inequalities — and `pageCount` is at least 1 even on an empty row
set (an empty row set is still one empty page). -/
theorem paginate_pageCount_ceil (rows : List RowData) (i p : Nat) (hp : 0 < p) :
    1 ≤ (paginateStage rows i p).pageCount ∧
    (rows.length = 0 → (paginateStage rows i p).pageCount = 1) ∧
    (0 < rows.length →
      (paginateStage rows i p).pageCount = (rows.length + p - 1) / p) ∧
    rows.length ≤ (paginateStage rows i p).pageCount * p ∧
    (0 < rows.length →
      ((paginateStage rows i p).pageCount - 1) * p < rows.length) := by
  rw [pageCount_paginate]
  refine ⟨one_le_pageCountOf _ _, ?_, ?_, le_pageCountOf_mul _ _ hp, ?_⟩
  · intro h0
    rw [h0]
    exact pageCountOf_zero p hp
  · intro hn
    exact pageCountOf_of_pos _ _ hp hn
  · intro hn
    exact pageCountOf_pred_mul_lt _ _ hp hn

/-- C3: when a non-empty row set is paginated with a requested page index
at or past `pageCount`, the stage clamps to the last valid page — the
reported index is `pageCount - 1`, the returned slice is that last page's
rows, and the slice is not empty (and no error is possible: the stage is a
total function). -/
theorem paginate_clamps_to_last_page (rows : List RowData) (i p : Nat)
    (hp : 0 < p) (hne : rows ≠ [])
    (hi : (paginateStage rows i p).pageCount ≤ i) :
    (paginateStage rows i p).pageIndex = (paginateStage rows i p).pageCount - 1 ∧
    (paginateStage rows i p).pageRows ≠ [] ∧
    (paginateStage rows i p).pageRows =
      (rows.drop (((paginateStage rows i p).pageCount - 1) * p)).take p := by
  have hn : 0 < rows.length := List.length_pos.mpr hne
  have hlt : (pageCountOf rows.length p - 1) * p < rows.length :=
    pageCountOf_pred_mul_lt _ _ hp hn
  rw [pageCount_paginate] at hi
  have hclamp : min i (pageCountOf rows.length p - 1) = pageCountOf rows.length p - 1 :=
    Nat.min_eq_right (by omega)
  refine ⟨?_, ?_, ?_⟩
  · rw [pageIndex_paginate, pageCount_paginate, hclamp]
  · rw [pageRows_paginate, hclamp]
    apply List.length_pos.mp
    rw [List.length_take, List.length_drop, lt_min_iff]
    exact ⟨hp, by omega⟩
  · rw [pageRows_paginate, pageCount_paginate, hclamp]

/-- Demo rows used by concrete witnesses: the field order is
name, age, country, city. -/
def rowA : RowData := { name := "Alice", age := 30, country := "USA", city := "NYC" }

def rowB : RowData := { name := "Bob", age := 25, country := "UK", city := "Leeds" }

def rowC : RowData := { name := "Cara", age := 25, country := "India", city := "Pune" }

def demoRows2 : List RowData := [rowA, rowB]

def demoRows3 : List RowData := [rowA, rowB, rowC]

theorem paginate_pageCount_ceil_witness :
    (paginateStage ([] : List RowData) 0 10).pageCount = 1 :=
  (paginate_pageCount_ceil ([] : List RowData) 0 10 (by decide)).2.1 rfl

theorem paginate_clamps_to_last_page_witness :
    (paginateStage demoRows3 5 2).pageIndex = (paginateStage demoRows3 5 2).pageCount - 1 ∧
    (paginateStage demoRows3 5 2).pageRows ≠ [] :=
  ⟨(paginate_clamps_to_last_page demoRows3 5 2 (by decide) (by decide) (by decide)).1,
   (paginate_clamps_to_last_page demoRows3 5 2 (by decide) (by decide) (by decide)).2.1⟩

/-- Modelled from the spec: a record of the Column Registry (section 3):
id, display label, accessor, sortability and filterability flags,
visibility and width. -/
structure Column where
  id : String
  label : String
  accessor : RowData → CellValue
  sortable : Bool
  filterable : Bool
  visible : Bool
  width : Int

/-- Modelled from the spec: the filter stage (section 4.2).  Empty or
whitespace-only filter text is a no-op; otherwise a row is kept when the
case-insensitive substring match succeeds on any filterable and visible
column's stringified accessor value. -/
def filterStage (registry : List Column) (rows : List RowData) (ft : String) : List RowData :=
  if isBlankText ft then rows
  else rows.filter (fun r =>
    registry.any (fun c => c.filterable && c.visible && matchesText ft (c.accessor r)))

/-- C5: applying the filter stage with empty or whitespace-only filter
text returns exactly the input row set, order preserved. -/
theorem filterStage_blank_identity (registry : List Column) (rows : List RowData)
    (ft : String) (hft : isBlankText ft = true) :
    filterStage registry rows ft = rows := by
  simp [filterStage, hft]

/-- Engine registry columns used by concrete witnesses; the city column is
deliberately registered as not sortable. -/
def colName : Column :=
  { id := "name", label := "Name", accessor := fun r => CellValue.str r.name,
    sortable := true, filterable := true, visible := true, width := 200 }

def colAge : Column :=
  { id := "age", label := "Age", accessor := fun r => CellValue.num r.age,
    sortable := true, filterable := true, visible := true, width := 200 }

def colCityNoSort : Column :=
  { id := "city", label := "City", accessor := fun r => CellValue.str r.city,
    sortable := false, filterable := true, visible := true, width := 200 }

def demoRegistry : List Column := [colName, colAge, colCityNoSort]

theorem filterStage_blank_identity_witness :
    filterStage demoRegistry demoRows3 "  " = demoRows3 :=
  filterStage_blank_identity demoRegistry demoRows3 "  " (by decide)

/-- From AdvancedTable.tsx line 556 (also line 39):
`columns.filter(col => visibleColumns.has(col.header))` — only columns
whose header label is in the visible set are handed to the table. -/
def activeColumns (cols : List ColumnDef) (vis : Finset String) : List ColumnDef :=
  cols.filter (fun c => decide (c.header ∈ vis))

/-- Modelled from the spec: the filter stage as it acts inside the
component — matching runs over the columns handed to the table
(section 4.2). -/
def filterOn (active : List ColumnDef) (ft : String) (rows : List RowData) : List RowData :=
  if isBlankText ft then rows
  else rows.filter (fun r => active.any (fun c => matchesText ft (c.accessor r)))

/-- Modelled from the spec: the sort stage as it acts inside the
component, keyed by the header of one of the table's columns
(section 4.3); an absent or unknown key preserves the input order. -/
def applySortOn (active : List ColumnDef) (srt : Option (String × SortDirection))
    (rows : List RowData) : List RowData :=
  match srt with
  | none => rows
  | some (lbl, d) =>
    match active.find? (fun c => c.header == lbl) with
    | some c => sortRows c.accessor d rows
    | none => rows

/-- Modelled from the spec: the filtered-and-sorted (pre-pagination) row
set of the component's table (pipeline of section 2). -/
def prePaginationRows (data : List RowData) (cols : List ColumnDef) (vis : Finset String)
    (ft : String) (srt : Option (String × SortDirection)) : List RowData :=
  applySortOn (activeColumns cols vis) srt (filterOn (activeColumns cols vis) ft data)

/-- Modelled from the spec: the component's final row model — the engine
returns the visible page of the filtered+sorted rows plus metadata
(sections 2 and 4.4); this is what `table.getRowModel().rows` denotes for
the rendering layer and everything else that reads it. -/
def componentRowModel (data : List RowData) (cols : List ColumnDef) (vis : Finset String)
    (ft : String) (srt : Option (String × SortDirection)) (pageIndex pageSize : Nat) :
    PageResult :=
  paginateStage (prePaginationRows data cols vis ft srt) pageIndex pageSize

/-- From `exportToCsv` (AdvancedTable.tsx lines 577-590, likewise lines
50-63 and src/unnamed/part_003 lines 245-258): the header row is built
from ALL registered columns (`columns.map((col) => col.header)`), while
the data rows map over `table.getRowModel().rows` — the current page —
taking each row's visible cells' values. -/
def exportGrid (cols : List ColumnDef) (vis : Finset String) (data : List RowData)
    (ft : String) (srt : Option (String × SortDirection)) (pageIndex pageSize : Nat) :
    List (List String) :=
  cols.map (fun c => c.header) ::
    (componentRowModel data cols vis ft srt pageIndex pageSize).pageRows.map
      (fun r => (activeColumns cols vis).map (fun c => cellToString (c.accessor r)))

/-- All four headers visible, as in the component's initial state. -/
def demoVisAll : Finset String := {"Name", "Age", "City", "Country"}

/-- C1 counterexample: with two rows, no filter, no sort, `pageSize = 1`
and `pageIndex = 0`, the export emits a single data row although the
filtered-and-sorted row set has two rows — pagination does reduce the
exported rows. -/
theorem exportGrid_misses_offpage_rows :
    ((exportGrid appColumns demoVisAll demoRows2 "" none 0 1).drop 1).length = 1 ∧
    (prePaginationRows demoRows2 appColumns demoVisAll "" none).length = 2 ∧
    ((exportGrid appColumns demoVisAll demoRows2 "" none 0 1).drop 1).length ≠
      (prePaginationRows demoRows2 appColumns demoVisAll "" none).length := by
  refine ⟨?_, ?_, ?_⟩ <;> decide

/-- C1 amended: the export emits one data row for every row of the
CURRENT PAGE of the filtered-and-sorted row set — the data rows are
exactly the row model's page mapped through the visible-column
stringification — so whenever the filtered row count exceeds `pageSize`
the export has strictly fewer data rows than the filtered-and-sorted row
set: pagination does affect the export. -/
theorem exportGrid_rows_eq_page_rows (data : List RowData) (cols : List ColumnDef)
    (vis : Finset String) (ft : String) (srt : Option (String × SortDirection))
    (pageIndex pageSize : Nat) :
    (exportGrid cols vis data ft srt pageIndex pageSize).drop 1 =
      (componentRowModel data cols vis ft srt pageIndex pageSize).pageRows.map
        (fun r => (activeColumns cols vis).map (fun c => cellToString (c.accessor r))) ∧
    (0 < pageSize → pageSize < (prePaginationRows data cols vis ft srt).length →
      ((exportGrid cols vis data ft srt pageIndex pageSize).drop 1).length <
        (prePaginationRows data cols vis ft srt).length) := by
  constructor
  · rfl
  · intro hps hlt
    have h1 : ((exportGrid cols vis data ft srt pageIndex pageSize).drop 1).length =
        (componentRowModel data cols vis ft srt pageIndex pageSize).pageRows.length := by
      show ((componentRowModel data cols vis ft srt pageIndex pageSize).pageRows.map
        (fun r => (activeColumns cols vis).map (fun c => cellToString (c.accessor r)))).length =
        (componentRowModel data cols vis ft srt pageIndex pageSize).pageRows.length
      rw [List.length_map]
    have h2 : (componentRowModel data cols vis ft srt pageIndex pageSize).pageRows.length ≤
        pageSize := by
      simp only [componentRowModel, pageRows_paginate, List.length_take]
      exact min_le_left _ _
    omega

theorem exportGrid_rows_eq_page_rows_witness :
    ((exportGrid appColumns demoVisAll demoRows2 "" none 0 1).drop 1).length <
      (prePaginationRows demoRows2 appColumns demoVisAll "" none).length :=
  (exportGrid_rows_eq_page_rows demoRows2 appColumns demoVisAll "" none 0 1).2
    (by decide) (by decide)

/-- Only the Name column visible. -/
def visOnlyName : Finset String := {"Name"}

def demoRows1 : List RowData := [rowA]

/-- C7: evaluating the export with the Age, City and Country columns
hidden — the header row still lists all four registered labels (4 fields)
while the only data row carries just the visible Name value (1 field), so
header and data rows do NOT have the same number of fields. -/
theorem exportGrid_header_data_mismatch :
    (exportGrid appColumns visOnlyName demoRows1 "" none 0 10).head? =
      some ["Name", "Age", "City", "Country"] ∧
    (exportGrid appColumns visOnlyName demoRows1 "" none 0 10).drop 1 = [["Alice"]] ∧
    ¬ (∀ hd ∈ (exportGrid appColumns visOnlyName demoRows1 "" none 0 10).head?,
        ∀ dr ∈ (exportGrid appColumns visOnlyName demoRows1 "" none 0 10).drop 1,
        hd.length = dr.length) := by
  refine ⟨?_, ?_, ?_⟩ <;> decide

/-- From `toggleColumnVisibility` (AdvancedTable.tsx lines 655-662,
likewise lines 141-148): delete the header label from the visible set
when present, insert it otherwise. -/
def toggleColumnVisibility (vis : Finset String) (header : String) : Finset String :=
  if header ∈ vis then vis.erase header else insert header vis

/-- From AdvancedTable.tsx lines 556 and 720: a column is shown exactly
when its header label is in the visible set
(`visibleColumns.has(col.header)`). -/
def columnIsVisible (vis : Finset String) (c : ColumnDef) : Bool :=
  decide (c.header ∈ vis)

theorem toggle_of_mem (vis : Finset String) (lbl : String) (hm : lbl ∈ vis) :
    toggleColumnVisibility vis lbl = vis.erase lbl := by
  simp [toggleColumnVisibility, hm]

theorem toggle_of_not_mem (vis : Finset String) (lbl : String) (hm : lbl ∉ vis) :
    toggleColumnVisibility vis lbl = insert lbl vis := by
  simp [toggleColumnVisibility, hm]

/-- C10: toggling column visibility is an involution on the visible set —
toggling the same header label twice restores the set exactly; a single
toggle removes a present label and adds an absent one; and since the key
is the header label, any two columns sharing the same label always have
the same visibility. -/
theorem toggleColumnVisibility_involution (vis : Finset String) (lbl : String) :
    toggleColumnVisibility (toggleColumnVisibility vis lbl) lbl = vis ∧
    (lbl ∈ vis → toggleColumnVisibility vis lbl = vis.erase lbl) ∧
    (lbl ∉ vis → toggleColumnVisibility vis lbl = insert lbl vis) ∧
    (∀ c1 c2 : ColumnDef, c1.header = c2.header →
      columnIsVisible vis c1 = columnIsVisible vis c2) := by
  refine ⟨?_, toggle_of_mem vis lbl, toggle_of_not_mem vis lbl, ?_⟩
  · by_cases hm : lbl ∈ vis
    · rw [toggle_of_mem vis lbl hm,
        toggle_of_not_mem (vis.erase lbl) lbl (Finset.not_mem_erase lbl vis)]
      exact Finset.insert_erase hm
    · rw [toggle_of_not_mem vis lbl hm,
        toggle_of_mem (insert lbl vis) lbl (Finset.mem_insert_self lbl vis)]
      exact Finset.erase_insert hm
  · intro c1 c2 hh
    rw [columnIsVisible, columnIsVisible, hh]

def demoVis2 : Finset String := {"Name", "Age"}

theorem toggleColumnVisibility_involution_witness :
    toggleColumnVisibility (toggleColumnVisibility demoVis2 "Age") "Age" = demoVis2 ∧
    toggleColumnVisibility demoVis2 "Age" = demoVis2.erase "Age" :=
  ⟨(toggleColumnVisibility_involution demoVis2 "Age").1,
   (toggleColumnVisibility_involution demoVis2 "Age").2.1 (by decide)⟩

/-- The component's pagination state
(interface `PaginationState`, AdvancedTable.tsx lines 504-507). -/
structure PaginationState where
  pageIndex : Nat
  pageSize : Nat
deriving DecidableEq, Repr

/-- From `setPageSize` (AdvancedTable.tsx lines 547-549, src/unnamed/
part_003 lines 215-217): `setPagination(prev => ({ ...prev, pageSize:
size }))` — only the page size field is replaced. -/
def setPageSize (prev : PaginationState) (size : Nat) : PaginationState :=
  { prev with pageSize := size }

def demoRowN (i : Nat) : RowData :=
  { name := "", age := Int.ofNat i, country := "", city := "" }

def rows30 : List RowData := (List.range 30).map demoRowN

/-- C8 counterexample: with 30 rows, previous state page 2 of size 10
(anchor row = row 20, the first visible row), changing the page size to 5
keeps `pageIndex = 2`; the displayed page (rows 10-14) no longer contains
the still-existing anchor row, although page 4 would — no anchor
re-derivation happens. -/
theorem setPageSize_breaks_anchor_cex :
    (paginateStage rows30 2 10).pageRows.head? = some (demoRowN 20) ∧
    setPageSize { pageIndex := 2, pageSize := 10 } 5 = { pageIndex := 2, pageSize := 5 } ∧
    demoRowN 20 ∈ rows30 ∧
    demoRowN 20 ∉ (paginateStage rows30
      (setPageSize { pageIndex := 2, pageSize := 10 } 5).pageIndex
      (setPageSize { pageIndex := 2, pageSize := 10 } 5).pageSize).pageRows ∧
    demoRowN 20 ∈ (paginateStage rows30 4 5).pageRows := by
  refine ⟨?_, ?_, ?_, ?_, ?_⟩ <;> decide

/-- C8 amended: changing the page size performs no anchor-row
re-derivation and no reset — `setPageSize` keeps the previous `pageIndex`
unchanged and only replaces `pageSize`. -/
theorem setPageSize_keeps_pageIndex (prev : PaginationState) (size : Nat) :
    setPageSize prev size = { pageIndex := prev.pageIndex, pageSize := size } := rfl

/-- From `handleColumnResize` in AdvancedTable.tsx (lines 92-114 and
602-624): the stored width is
`Math.max(50, startWidth + moveEvent.clientX - startX)`. -/
def resizeNewWidth (startWidth startX clientX : Int) : Int :=
  max 50 (startWidth + clientX - startX)

/-- From `handleColumnResize` in src/unnamed/part_002 line 94 (likewise
part_004 line 94 and part_005 line 97): the clamp constant is 20 although
the adjacent comment still reads `Minimum width of 50px`. -/
def resizeNewWidthVariant (startWidth startX clientX : Int) : Int :=
  max 20 (startWidth + clientX - startX)

/-- C6: at default start width 200 with the pointer moved 180px to the
left, the main component clamps the stored width to the 50px floor, but
the part_002/part_004/part_005 variants store 20 — a width below the
documented 50px minimum, contradicting their own `Minimum width of 50px`
comment. -/
theorem resize_variant_width_below_floor :
    resizeNewWidth 200 300 120 = 50 ∧
    resizeNewWidthVariant 200 300 120 = 20 ∧
    resizeNewWidthVariant 200 300 120 < 50 := by
  refine ⟨?_, ?_, ?_⟩ <;> decide

/-- A fetched address object as the external users endpoint delivers it;
an absent property is `none` (JavaScript `undefined`). -/
structure FetchedAddress where
  city : Option String
  country : Option String
deriving DecidableEq, Repr

/-- A loosely-typed user record as the fetch collaborator delivers it to
`App` (src/unnamed/part_001 line 26); an absent property is `none`
(JavaScript `undefined`). -/
structure FetchedUser where
  firstName : Option String
  lastName : Option String
  age : Option Int
  address : Option FetchedAddress
deriving DecidableEq, Repr

/-- The runtime error JavaScript raises when a property is read off
`undefined`. -/
inductive JsError where
  | typeError (msg : String)
deriving DecidableEq, Repr

/-- A row as `App`'s mapping actually builds it: `age`, `city` and
`country` are copied as-is, so a missing source property lands in the row
as `undefined` (`none`) without any error being raised. -/
structure FormattedRow where
  name : String
  age : Option Int
  city : Option String
  country : Option String
deriving DecidableEq, Repr

/-- JavaScript template-literal interpolation: `undefined` renders as the
text `undefined`. -/
def jsTemplateString : Option String → String
  | some s => s
  | none => "undefined"

/-- From `App` (src/unnamed/part_001 lines 29-34): the ingestion step maps
each fetched user to `{ name: firstName lastName, age: user.age, city:
user.address.city, country: user.address.country }` with no validation at
all.  The only possible failure is the TypeError JavaScript itself throws
when `user.address` is `undefined`; it is thrown inside a promise chain
that has no catch handler. -/
def formatUser (user : FetchedUser) : Except JsError FormattedRow :=
  match user.address with
  | none => Except.error (JsError.typeError "Cannot read properties of undefined")
  | some addr =>
    Except.ok
      { name := jsTemplateString user.firstName ++ " " ++ jsTemplateString user.lastName
        age := user.age
        city := addr.city
        country := addr.country }

/-- From `App` (src/unnamed/part_001 lines 29-35): the whole fetched user
list is mapped at once, so a single throwing record aborts the entire
data load and `setData` is never called. -/
def formatUsers (users : List FetchedUser) : Except JsError (List FormattedRow) :=
  users.mapM formatUser

def userNoAge : FetchedUser :=
  { firstName := some "Ann", lastName := some "Lee", age := none,
    address := some { city := some "Pune", country := some "India" } }

def userNoAddress : FetchedUser :=
  { firstName := some "Ann", lastName := some "Lee", age := some 30, address := none }

/-- C9: the repository's actual ingestion (`App`'s mapping) never raises a
`SchemaMismatch`: a record missing the required `age` field is accepted
silently, its age landing in the row as `undefined`, while a record
missing `address` makes the mapping throw a bare uncaught TypeError that
aborts the whole data load — contrary to the claim, no caller-input error
value is surfaced to the invoking collaborator. -/
theorem app_ingestion_no_schema_mismatch :
    formatUser userNoAge =
      Except.ok { name := "Ann Lee", age := none,
                  city := some "Pune", country := some "India" } ∧
    formatUser userNoAddress =
      Except.error (JsError.typeError "Cannot read properties of undefined") ∧
    formatUsers [userNoAge, userNoAddress] =
      Except.error (JsError.typeError "Cannot read properties of undefined") := by
  refine ⟨?_, ?_, ?_⟩ <;> rfl
